import Mathlib

/-!
Shallow embedding of the runtime Manager of `common/runtime/manager/manager.go`.

The Manager multiplexes named services onto per-scheme servers, reacts to a
configuration watch and to broker-delivered commands, and keeps a shared
registry in sync.  External collaborators (registry, broker, config store,
server and service implementations) are modelled as data supplied to the
embedded functions: registry calls are fields of `Reg`, and the outcomes of
`Start` / `Stop` / `OnServe` / `Serve` calls are `Option String` error fields
on the `Service` / `Server` records.  Each embedded function returns the
trace of external calls it performs (`Event` list) together with its Go
return value (`Except String Unit` standing for Go's `error`).

Concurrency (errgroup scheduling) is flattened into the iteration order of
the corresponding Go loop; an errgroup's `Wait` result is the first error in
that order, matching the trace semantics used by the claims.
-/

namespace Cells

/-- `registry.MetaStatusKey`: the metadata key under which the registry
stores an item's status. -/
def MetaStatusKey : String := "status"

/-- `string(registry.StatusStopped)`: the status literal compared against in
`regRunningService`. -/
def StatusStoppedStr : String := "stopped"

/-- A serve option (`server.ServeOption`).  Only the parts the Manager
inspects or constructs are modelled: opaque ambient options supplied by the
caller, and the before/after hooks added by `serviceServeOptions`
(`WithBeforeServe(svc.Start)` / `WithAfterServe(svc.OnServe)`), identified by
the id of the service whose hooks they are. -/
inductive ServeOpt
  | ambient (tag : String)
  | beforeServe (id : String)
  | afterServe (id : String)
deriving DecidableEq, Repr

/-- A `service.Service` handle together with its options
(`Fork, AutoStart, ForceRegister, Unique, AutoRestart, Tags`), its current
`Is(StatusReady)` answer, the server handle it is attached to
(`Options().Server`, by server id), and the outcomes of its `Start`, `Stop`
and `OnServe` calls (`none` = nil error). -/
structure Service where
  id : String
  name : String
  scheme : String
  tags : List String
  fork : Bool
  autoStart : Bool
  forceRegister : Bool
  unique : Bool
  autoRestart : Bool
  ready : Bool
  serverId : String
  startErr : Option String := none
  onServeErr : Option String := none
  stopErr : Option String := none
deriving DecidableEq, Repr

/-- A `server.Server` handle: its id, scheme, the answers of
`Is(StatusStopped)`, `Is(StatusReady)` and `NeedsRestart()`, and the
outcomes of `Serve` and `Stop`. -/
structure Server where
  id : String
  scheme : String
  stopped : Bool
  ready : Bool
  needsRestart : Bool
  serveErr : Option String := none
  stopErr : Option String := none
deriving DecidableEq, Repr

/-- What a registry item downcasts to (`item.As(&x)` probes): a live
in-memory service or server handle, a registry projection of a service or
server (`registry.Service` / `registry.Server`), or neither. -/
inductive ItemShape
  | memSvc (svc : Service)
  | memSrv (srv : Server)
  | projSvc
  | projSrv
  | plain
deriving DecidableEq, Repr

/-- A generic registry item (`registry.Item`): id, name, metadata mapping
and its downcast shape. -/
structure RegItem where
  id : String
  name : String
  meta : List (String × String)
  shape : ItemShape
deriving DecidableEq, Repr

/-- Error of `registry.Get`: `os.ErrNotExist` is handled specially by the
broker handler, every other error propagates. -/
inductive GetErr
  | notFound
  | other (e : String)
deriving DecidableEq, Repr

/-- The shared registry, as seen through the calls the Manager makes.
`listSvcByName` models `reg.List(WithType(SERVICE), WithName(name))` and
returns both the item slice and the error, because `regRunningService`
discards the error (`ll, _ := ...`).  `getItem` models
`reg.Get(name, WithType(SERVER), WithType(SERVICE))`; `listByName` models
`reg.List(WithName(key))` used by the config watcher. -/
structure Reg where
  listSvcByName : String → List RegItem × Option String
  getItem : String → Except GetErr RegItem
  listByName : String → Except String (List RegItem)

/-- The Manager state used by the runtime operations: the shared registry,
the ambient serve options (`m.serveOptions`), and the retained `servers` and
`services` maps (modelled as lists in iteration order). -/
structure Manager where
  reg : Reg
  serveOptions : List ServeOpt
  servers : List Server
  services : List Service

/-- Go map access `item.Metadata()[k]`: empty string when absent. -/
def metaValue (l : RegItem) (k : String) : String :=
  (l.meta.lookup k).getD ""

/-- An external call performed by a Manager operation, in order. -/
inductive Event
  | svcStartE (id : String)
  | svcOnServeE (id : String)
  | svcStopE (id : String)
  | srvServeE (id : String) (opts : List ServeOpt)
  | srvStopE (id : String)
  | arbiterE (id : String)
  | deregRootE
deriving DecidableEq, Repr

/-- Turn the recorded outcome of an external call into its Go error value. -/
def exceptOf (e? : Option String) : Except String Unit :=
  match e? with
  | some e => Except.error e
  | none => Except.ok ()

/-- `m.regRunningService(name)`: list SERVICE items of that name, discard
the List error (`ll, _ :=`), and report whether any listed item's status
metadata differs from `Stopped`. -/
def regRunningService (m : Manager) (name : String) : Bool :=
  let ll := (m.reg.listSvcByName name).1
  ll.any (fun l => metaValue l MetaStatusKey != StatusStoppedStr)

/-- `m.serviceServeOptions(svc)`: the before-serve hook `svc.Start` and the
after-serve hook `svc.OnServe`. -/
def serviceServeOptions (svc : Service) : List ServeOpt :=
  [ServeOpt.beforeServe svc.id, ServeOpt.afterServe svc.id]

/-- The return value of `srv.Serve(...)`. -/
def serveResult (srv : Server) : Except String Unit :=
  exceptOf srv.serveErr

/-- `m.servicesRunningOn(server)`: retained services attached to that server
handle that are `Ready`. -/
def servicesRunningOn (m : Manager) (srv : Server) : List Service :=
  m.services.filter (fun v => v.serverId == srv.id && v.ready)

/-- Concatenation of `serviceServeOptions` over a list of services, in
order (the repeated `serveOptions = append(serveOptions, ...)` of the
source loops). -/
def hooksConcat (l : List Service) : List ServeOpt :=
  l.foldr (fun v acc => serviceServeOptions v ++ acc) []

/-- `m.stopService(svc, oo...)`: delegate to `svc.Stop(oo...)`. -/
def stopService (svc : Service) : List Event × Except String Unit :=
  ([Event.svcStopE svc.id], exceptOf svc.stopErr)

/-- `m.stopServer(srv, oo...)`: stop every running service on the server
(errgroup), await them; on error return it without stopping the server,
otherwise call `srv.Stop(oo...)`. -/
def stopServer (m : Manager) (srv : Server) : List Event × Except String Unit :=
  let run := servicesRunningOn m srv
  let evs := run.map (fun v => Event.svcStopE v.id)
  match run.findSome? (fun v => v.stopErr) with
  | some e => (evs, Except.error e)
  | none => (evs ++ [Event.srvStopE srv.id], exceptOf srv.stopErr)

/-- The service-skipping test of `startServer`'s loop:
`svc.Options().Unique && m.regRunningService(svc.Name())`. -/
def skipUnique (m : Manager) (v : Service) : Bool :=
  v.unique && regRunningService m v.name

/-- Attachment test of `startServer`'s loop: `svc.Options().Server == srv`. -/
def attachedTo (srv : Server) (v : Service) : Bool :=
  v.serverId == srv.id

/-- The loop body of `m.startServer`: over the retained services, collect
the ids of unique services deferred to an arbiter
(`go m.WatchUniqueNeedsStart(svc)`) and the serve hooks merged for the
others, in iteration order. -/
def ssLoop (m : Manager) (srv : Server) : List Service → List String × List ServeOpt
  | [] => ([], [])
  | v :: rest =>
    let r := ssLoop m srv rest
    if attachedTo srv v then
      if skipUnique m v then (v.id :: r.1, r.2)
      else (r.1, serviceServeOptions v ++ r.2)
    else r

/-- `m.startServer(srv, oo...)`: run the loop over retained services, then
invoke `srv.Serve` with the caller's options followed by the merged hooks.
Returns (arbiter ids, final serve options, Serve result). -/
def startServer (m : Manager) (srv : Server) (oo : List ServeOpt) :
    List String × List ServeOpt × Except String Unit :=
  let r := ssLoop m srv m.services
  (r.1, oo ++ r.2, serveResult srv)

/-- `m.startService(svc)`: resolve the service's server handle, then
three-way branch on `srv.Is(StatusStopped)` / `srv.NeedsRestart()`.
The `none` case of the resolution models a nil `Options().Server`
(a nil dereference in the source, unreachable after `Init`). -/
def startService (m : Manager) (svc : Service) : List Event × Except String Unit :=
  match m.servers.find? (fun s => s.id == svc.serverId) with
  | none => ([], Except.error "nil server")
  | some srv =>
    let serveOptions := m.serveOptions ++ serviceServeOptions svc
    if srv.stopped then
      ([Event.srvServeE srv.id serveOptions], serveResult srv)
    else if srv.needsRestart then
      let serveOptions := serveOptions ++ hooksConcat (servicesRunningOn m srv)
      let s := stopServer m srv
      match s.2 with
      | Except.error e => (s.1, Except.error e)
      | Except.ok _ => (s.1 ++ [Event.srvServeE srv.id serveOptions], serveResult srv)
    else
      match svc.startErr with
      | some e => ([Event.svcStartE svc.id], Except.error e)
      | none =>
        match svc.onServeErr with
        | some e => ([Event.svcStartE svc.id, Event.svcOnServeE svc.id], Except.error e)
        | none => ([Event.svcStartE svc.id, Event.svcOnServeE svc.id], Except.ok ())

/-- The downcast cascade of the broker handler, service side: an in-memory
service handle is used directly; a registry projection of a service is
swapped for the in-memory handle from the local map by id. -/
def resolveSvc (m : Manager) (s : RegItem) : Option Service :=
  match s.shape with
  | ItemShape.memSvc v => some v
  | ItemShape.projSvc => m.services.find? (fun x => x.id == s.id)
  | _ => none

/-- The downcast cascade of the broker handler, server side. -/
def resolveSrv (m : Manager) (s : RegItem) : Option Server :=
  match s.shape with
  | ItemShape.memSrv v => some v
  | ItemShape.projSrv => m.servers.find? (fun x => x.id == s.id)
  | _ => none

/-- The subscription callback of `m.WatchBroker` for one delivered message
with fields `command` and `itemName`.  `Get` not-found is acknowledged
silently; other `Get` errors propagate.  Note the source's server branch is
guarded by `else if srv == nil`: with `svc == nil` the earlier
`svc == nil && srv == nil` guard ensures `srv != nil`, so the server switch
is unreachable and the handler returns nil.  (Entering it with a nil `srv`
would dereference nil in `startServer`/`stopServer`; modelled as an error,
it cannot be reached.) -/
def brokerHandler (m : Manager) (cmd itemName : String) :
    List Event × Except String Unit :=
  match m.reg.getItem itemName with
  | Except.error GetErr.notFound => ([], Except.ok ())
  | Except.error (GetErr.other e) => ([], Except.error e)
  | Except.ok s =>
    let svc? := resolveSvc m s
    let srv? := resolveSrv m s
    if svc?.isNone && srv?.isNone then ([], Except.ok ())
    else
      match svc? with
      | some svc =>
        if cmd = "start" then startService m svc
        else if cmd = "stop" then stopService svc
        else if cmd = "restart" then
          let s1 := stopService svc
          match s1.2 with
          | Except.error e => (s1.1, Except.error e)
          | Except.ok _ =>
            let s2 := startService m svc
            (s1.1 ++ s2.1, s2.2)
        else ([], Except.error ("unsupported command " ++ cmd))
      | none =>
        if srv?.isNone then ([], Except.error "nil server dereference")
        else ([], Except.ok ())

/-- The body of `m.WatchServicesConfigs` for one map event with key `key`:
list items by name, skip on error or empty, downcast `ss[0]` to a service,
and when its `AutoRestart` flag is set, stop it and (only on a nil stop
error) start it. -/
def configEventHandler (m : Manager) (key : String) : List Event :=
  match m.reg.listByName key with
  | Except.error _ => []
  | Except.ok [] => []
  | Except.ok (s :: _) =>
    match s.shape with
    | ItemShape.memSvc svc =>
      if svc.autoRestart then
        let s1 := stopService svc
        match s1.2 with
        | Except.ok _ => s1.1 ++ (startService m svc).1
        | Except.error _ => s1.1
      else []
    | _ => []

/-- `m.StopAll()`: for every retained server currently `Ready`, run
`stopServer` (errgroup, flattened into iteration order); the aggregate
error is only logged; then `Deregister` the root node unconditionally. -/
def StopAll (m : Manager) : List Event :=
  ((m.servers.filter (fun s => s.ready)).foldr
      (fun srv acc => (stopServer m srv).1 ++ acc) [])
    ++ [Event.deregRootE]

/-! ### The planning loop of `Init`

`Init`'s candidate list (the SERVICE items of the source registry that
downcast via `ss.As(&s)`) is supplied as a `List Service`; the runtime and
registry collaborators it consults are fields of `InitEnv`.  The root node
possibly created by `NewManager` is an `Option String` (its id): registry
errors during creation leave it `none`. -/

/-- The external collaborators of `Init`'s loop: `runtime.IsFork()`,
`runtime.IsRequired(name, tags...)`, `server.OpenServer(ctx, scheme)`, and
the outcome of `reg.Register(s, WithEdgeTo(root, "Node"))` per service id. -/
structure InitEnv where
  isFork : Bool
  required : String → List String → Bool
  openServer : String → Except String Server
  registerErr : String → Option String

/-- Loop state of `Init`: the per-scheme server cache `byScheme`, the
services passed to `reg.Register` with a `Node` edge from the root, and the
local `m.services` map (in insertion order). -/
structure InitState where
  byScheme : List (String × Server)
  registered : List Service
  services : List Service
deriving Repr

/-- How `Init`'s loop can abort: a server open failure (returned as `er`),
a register failure (returned as `er`), or the nil-pointer dereference of
`m.root.ID()` in `registry.WithEdgeTo(m.root.ID(), ...)` when the root was
never set (a run-time panic in the source). -/
inductive InitErr
  | openSrvErr (e : String)
  | registerFail (e : String)
  | nilRootPanic
deriving DecidableEq, Repr

/-- The per-scheme server resolution of `Init`: look up the scheme cache;
on a miss, `server.OpenServer` a fresh one and cache it; an open failure
aborts `Init`.  Returns the resolved server and the updated cache. -/
def resolveServer (env : InitEnv) (byScheme : List (String × Server))
    (scheme : String) : Except InitErr (Server × List (String × Server)) :=
  match byScheme.lookup scheme with
  | some sr => Except.ok (sr, byScheme)
  | none =>
    match env.openServer scheme with
    | Except.ok srv => Except.ok (srv, byScheme ++ [(scheme, srv)])
    | Except.error e => Except.error (InitErr.openSrvErr e)

/-- One iteration of `Init`'s planning loop over candidate service `s`:
apply the required-tags / force-register filter, drop fork-only
non-autostart services (`mustFork = s.fork && !IsFork()`), resolve the
per-scheme server, skip registration for `mustFork` services, otherwise
register under the root (dereferencing the root id in
`WithEdgeTo(m.root.ID(), "Node")`) and retain the service locally. -/
def initStep (env : InitEnv) (root : Option String) (st : InitState)
    (s : Service) : Except InitErr InitState :=
  if !env.required s.name s.tags && !s.forceRegister then Except.ok st
  else if (s.fork && !env.isFork) && !s.autoStart then Except.ok st
  else
    match resolveServer env st.byScheme s.scheme with
    | Except.error e => Except.error e
    | Except.ok (srv, bs) =>
      if s.fork && !env.isFork then Except.ok { st with byScheme := bs }
      else
        match root with
        | none => Except.error InitErr.nilRootPanic
        | some _ =>
          match env.registerErr s.id with
          | some e => Except.error (InitErr.registerFail e)
          | none =>
            Except.ok { byScheme := bs,
                        registered := st.registered ++ [{ s with serverId := srv.id }],
                        services := st.services ++ [{ s with serverId := srv.id }] }

/-- `Init`'s loop over all candidate services, aborting on the first
error. -/
def initLoop (env : InitEnv) (root : Option String) :
    InitState → List Service → Except InitErr InitState
  | st, [] => Except.ok st
  | st, s :: rest =>
    match initStep env root st s with
    | Except.error e => Except.error e
    | Except.ok st' => initLoop env root st' rest

/-- `m.Init`: run the planning loop from the empty state; afterwards, only
when the root is set, retain every cached server locally (and add its
`Node` edge).  Returns the final loop state and the retained servers. -/
def runInit (env : InitEnv) (root : Option String) (cands : List Service) :
    Except InitErr (InitState × List Server) :=
  match initLoop env root ⟨[], [], []⟩ cands with
  | Except.error e => Except.error e
  | Except.ok st =>
    Except.ok (st, match root with
      | some _ => st.byScheme.map Prod.snd
      | none => [])

/-- Spec-side predicate for claim C3, following the spec's words: "the
registry already shows another `Ready` instance by that name" — an item of
that name, distinct from the service itself, whose status metadata is the
`Ready` literal. -/
def regShowsReadyInstance (m : Manager) (selfId name : String) : Bool :=
  (m.reg.listSvcByName name).1.any
    (fun l => l.id != selfId && metaValue l MetaStatusKey == "ready")

/-! ### Supporting lemmas -/

theorem ssLoop_fst (m : Manager) (srv : Server) (l : List Service) :
    (ssLoop m srv l).1 =
      (l.filter (fun v => attachedTo srv v && skipUnique m v)).map Service.id := by
  induction l with
  | nil => rfl
  | cons v rest ih =>
    cases ha : attachedTo srv v <;> cases hs : skipUnique m v <;>
      simp [ssLoop, List.filter_cons, ha, hs, ih]

theorem ssLoop_snd (m : Manager) (srv : Server) (l : List Service) :
    (ssLoop m srv l).2 =
      hooksConcat (l.filter (fun v => attachedTo srv v && !skipUnique m v)) := by
  induction l with
  | nil => rfl
  | cons v rest ih =>
    cases ha : attachedTo srv v <;> cases hs : skipUnique m v <;>
      simp [ssLoop, List.filter_cons, hooksConcat, ha, hs, ih]

theorem beforeServe_mem_hooksConcat (i : String) (l : List Service) :
    ServeOpt.beforeServe i ∈ hooksConcat l ↔ ∃ v ∈ l, v.id = i := by
  induction l with
  | nil => simp [hooksConcat]
  | cons v rest ih =>
    have hc : hooksConcat (v :: rest) = serviceServeOptions v ++ hooksConcat rest := rfl
    rw [hc, List.mem_append, ih]
    simp only [serviceServeOptions, List.mem_cons, List.mem_singleton,
      ServeOpt.beforeServe.injEq, List.not_mem_nil, or_false, exists_eq_or_imp]
    constructor
    · rintro ((h | h) | h)
      · exact Or.inl h.symm
      · cases h
      · exact Or.inr h
    · rintro (h | h)
      · exact Or.inl (Or.inl h.symm)
      · exact Or.inr h

theorem foldr_append_infix {α β : Type} (f : α → List β) (l : List α) (a : α)
    (ha : a ∈ l) :
    ∃ pre post, l.foldr (fun x acc => f x ++ acc) [] = pre ++ f a ++ post := by
  induction l with
  | nil => cases ha
  | cons x rest ih =>
    rcases List.mem_cons.mp ha with h | h
    · subst h
      exact ⟨[], rest.foldr (fun x acc => f x ++ acc) [], by simp⟩
    · rcases ih h with ⟨pre, post, hp⟩
      exact ⟨f x ++ pre, post, by simp [hp]⟩

theorem stopServer_clean (m : Manager) (srv : Server)
    (h : ∀ v ∈ servicesRunningOn m srv, v.stopErr = none) :
    stopServer m srv =
      ((servicesRunningOn m srv).map (fun v => Event.svcStopE v.id)
          ++ [Event.srvStopE srv.id],
        exceptOf srv.stopErr) := by
  have hn : (servicesRunningOn m srv).findSome? (fun v => v.stopErr) = none :=
    List.findSome?_eq_none_iff.mpr h
  simp [stopServer, hn]

theorem initStep_inv (env : InitEnv) (root : Option String) (st : InitState)
    (s : Service) (st' : InitState) (hfork : env.isFork = false)
    (h : initStep env root st s = Except.ok st') :
    (∀ v ∈ st'.services, v ∈ st.services ∨ v.fork = false) ∧
    (∀ v ∈ st'.registered, v ∈ st.registered ∨ v.fork = false) := by
  unfold initStep at h
  split at h
  · cases h; exact ⟨fun v hv => Or.inl hv, fun v hv => Or.inl hv⟩
  · split at h
    · cases h; exact ⟨fun v hv => Or.inl hv, fun v hv => Or.inl hv⟩
    · split at h
      · cases h
      · rename_i srv bs _
        split at h
        · cases h; exact ⟨fun v hv => Or.inl hv, fun v hv => Or.inl hv⟩
        · rename_i hmf
          have hf : s.fork = false := by
            rw [hfork] at hmf; simpa using hmf
          split at h
          · cases h
          · split at h
            · cases h
            · cases h
              constructor <;> intro v hv <;>
                  rcases List.mem_append.mp hv with hv | hv
              · exact Or.inl hv
              · simp only [List.mem_singleton] at hv; subst hv; exact Or.inr hf
              · exact Or.inl hv
              · simp only [List.mem_singleton] at hv; subst hv; exact Or.inr hf

theorem initLoop_inv (env : InitEnv) (root : Option String)
    (hfork : env.isFork = false) (cands : List Service) :
    ∀ st st' : InitState, initLoop env root st cands = Except.ok st' →
      (∀ v ∈ st'.services, v ∈ st.services ∨ v.fork = false) ∧
      (∀ v ∈ st'.registered, v ∈ st.registered ∨ v.fork = false) := by
  induction cands with
  | nil =>
    intro st st' h
    cases h
    exact ⟨fun v hv => Or.inl hv, fun v hv => Or.inl hv⟩
  | cons s rest ih =>
    intro st st' h
    rcases hstep : initStep env root st s with e | st1
    · simp only [initLoop, hstep] at h; cases h
    · simp only [initLoop, hstep] at h
      have h1 := initStep_inv env root st s st1 hfork hstep
      have h2 := ih st1 st' h
      constructor <;> intro v hv
      · rcases h2.1 v hv with hv1 | hv1
        · rcases h1.1 v hv1 with hv2 | hv2
          · exact Or.inl hv2
          · exact Or.inr hv2
        · exact Or.inr hv1
      · rcases h2.2 v hv with hv1 | hv1
        · rcases h1.2 v hv1 with hv2 | hv2
          · exact Or.inl hv2
          · exact Or.inr hv2
        · exact Or.inr hv1

/-! ### Concrete fixtures for counterexamples and witnesses -/

/-- A retained grpc server, currently stopped. -/
def srvA : Server :=
  { id := "srvA", scheme := "grpc", stopped := true, ready := false,
    needsRestart := false }

/-- A retained service attached to `srvA`, with `AutoRestart` set. -/
def svcB : Service :=
  { id := "svcB", name := "svcB", scheme := "grpc", tags := [],
    fork := false, autoStart := true, forceRegister := false,
    unique := false, autoRestart := true, ready := true, serverId := "srvA" }

/-- Registry item presenting the in-memory server handle `srvA`. -/
def itemSrvA : RegItem :=
  { id := "srvA", name := "srvA", meta := [], shape := ItemShape.memSrv srvA }

/-- Registry item presenting the in-memory service handle `svcB`. -/
def itemSvcB : RegItem :=
  { id := "svcB", name := "svcB", meta := [], shape := ItemShape.memSvc svcB }

/-- A registry over the two items above. -/
def regW : Reg :=
  { listSvcByName := fun _ => ([], none),
    getItem := fun n =>
      if n = "srvA" then Except.ok itemSrvA
      else if n = "svcB" then Except.ok itemSvcB
      else Except.error GetErr.notFound,
    listByName := fun n =>
      if n = "svcB" then Except.ok [itemSvcB] else Except.ok [] }

/-- A Manager retaining `srvA` and `svcB`. -/
def mW : Manager :=
  { reg := regW, serveOptions := [ServeOpt.ambient "amb"],
    servers := [srvA], services := [svcB] }

/-- Planning environment for `Init`: non-fork process, every service
required, server opens succeed, registrations succeed. -/
def envC2 : InitEnv :=
  { isFork := false,
    required := fun _ _ => true,
    openServer := fun sch =>
      Except.ok { id := "srv-" ++ sch, scheme := sch, stopped := true,
                  ready := false, needsRestart := false },
    registerErr := fun _ => none }

/-- An ordinary candidate service (required, not fork-only). -/
def candN : Service :=
  { id := "candN", name := "candN", scheme := "grpc", tags := [],
    fork := false, autoStart := true, forceRegister := false,
    unique := false, autoRestart := false, ready := false, serverId := "" }

/-! ### Claims -/

/-- Claim C1 (code bug at the failing input): a broker message whose
`itemName` resolves to a server handle is supposed to dispatch the command
on that handle, but the source's server branch is guarded by
`else if srv == nil` (with `srv != nil` intended), so with a resolved
server handle the handler performs no call at all and returns nil for all
three commands. -/
theorem c1_server_commands_never_dispatched :
    brokerHandler mW "start" "srvA" = ([], Except.ok ()) ∧
    brokerHandler mW "stop" "srvA" = ([], Except.ok ()) ∧
    brokerHandler mW "restart" "srvA" = ([], Except.ok ()) :=
  ⟨rfl, rfl, rfl⟩

/-- Claim C2 (code bug at the failing input): with the root left unset by
`NewManager` and a single ordinary candidate service, `Init`'s planning
loop reaches the registration step and dereferences the nil root in
`registry.WithEdgeTo(m.root.ID(), "Node")` instead of completing while
skipping root edges. -/
theorem c2_nil_root_panics_in_planning :
    runInit envC2 none [candN] = Except.error InitErr.nilRootPanic := rfl

/-- Claim C5 (code bug at the failing input): an unsupported command on an
item resolving to a service handle is returned as the error
`unsupported command <cmd>`, but on an item resolving to a server handle
the inverted `else if srv == nil` guard makes the handler return nil
instead of that error. -/
theorem c5_unsupported_command_server_silently_acked :
    brokerHandler mW "frobnicate" "svcB" =
      ([], Except.error "unsupported command frobnicate") ∧
    brokerHandler mW "frobnicate" "srvA" = ([], Except.ok ()) :=
  ⟨rfl, rfl⟩

/-- Claim C6: on a broker `restart` for an item resolving to a service
handle, the handler stops the service first; if the stop errors, no start
is attempted and that error is returned to the broker; if the stop
succeeds, `startService` runs next and its outcome is returned. -/
theorem c6_broker_restart_stop_then_start (m : Manager) (itemName : String)
    (s : RegItem) (svc : Service)
    (hget : m.reg.getItem itemName = Except.ok s)
    (hres : resolveSvc m s = some svc) :
    (∀ e, svc.stopErr = some e →
      brokerHandler m "restart" itemName =
        ([Event.svcStopE svc.id], Except.error e)) ∧
    (svc.stopErr = none →
      brokerHandler m "restart" itemName =
        (Event.svcStopE svc.id :: (startService m svc).1,
          (startService m svc).2)) := by
  constructor
  · intro e he
    simp [brokerHandler, hget, hres, stopService, exceptOf, he]
  · intro he
    simp [brokerHandler, hget, hres, stopService, exceptOf, he]

/-- Witness for C6 at `mW`: restarting `svcB` (whose stop succeeds) stops
it and then runs `startService`. -/
theorem c6_broker_restart_stop_then_start_witness :
    brokerHandler mW "restart" "svcB" =
      (Event.svcStopE svcB.id :: (startService mW svcB).1,
        (startService mW svcB).2) :=
  (c6_broker_restart_stop_then_start mW "svcB" itemSvcB svcB rfl rfl).2 rfl

/-- Claim C9: for one key-value event of the `services` config watch, when
the registry yields a first item that downcasts to a service with
`AutoRestart` set, the Manager stops it and, only when the stop succeeds,
starts it; when the registry errors, yields nothing, or the flag is unset,
nothing happens. -/
theorem c9_config_watch_restart (m : Manager) (key : String) :
    (∀ e, m.reg.listByName key = Except.error e →
      configEventHandler m key = []) ∧
    (m.reg.listByName key = Except.ok [] → configEventHandler m key = []) ∧
    (∀ s rest svc, m.reg.listByName key = Except.ok (s :: rest) →
      s.shape = ItemShape.memSvc svc →
      (svc.autoRestart = false → configEventHandler m key = []) ∧
      (svc.autoRestart = true →
        (∀ e, svc.stopErr = some e →
          configEventHandler m key = [Event.svcStopE svc.id]) ∧
        (svc.stopErr = none →
          configEventHandler m key =
            Event.svcStopE svc.id :: (startService m svc).1))) := by
  refine ⟨?_, ?_, ?_⟩
  · intro e he; simp [configEventHandler, he]
  · intro he; simp [configEventHandler, he]
  · intro s rest svc hlist hshape
    refine ⟨?_, ?_⟩
    · intro har; simp [configEventHandler, hlist, hshape, har]
    · intro har
      refine ⟨?_, ?_⟩
      · intro e he
        simp [configEventHandler, hlist, hshape, har, stopService, exceptOf, he]
      · intro he
        simp [configEventHandler, hlist, hshape, har, stopService, exceptOf, he]

/-- Witness for C9 at `mW`: key `svcB` lists `itemSvcB`, whose service has
`AutoRestart` set and a clean stop, so the handler stops and restarts it. -/
theorem c9_config_watch_restart_witness :
    configEventHandler mW "svcB" =
      Event.svcStopE svcB.id :: (startService mW svcB).1 :=
  (((c9_config_watch_restart mW "svcB").2.2 itemSvcB [] svcB rfl rfl).2 rfl).2 rfl

/-- Claim C4: when the resolved server is running (not Stopped), then if it
does not need a restart, `startService` calls `svc.Start()` and then (on a
nil Start error) `svc.OnServe()` directly, with no server call in the
trace; if it reports `NeedsRestart`, `startService` stops the server's
running services, then the server itself, then invokes `Serve` with the
ambient options, the new service's hooks, and the hooks of every service
that was running on that server. -/
theorem c4_startService_running_vs_restart (m : Manager) (svc : Service)
    (srv : Server)
    (hres : m.servers.find? (fun s => s.id == svc.serverId) = some srv)
    (hstop : srv.stopped = false) :
    (srv.needsRestart = false →
      (startService m svc).1 =
        Event.svcStartE svc.id ::
          (match svc.startErr with
           | some _ => []
           | none => [Event.svcOnServeE svc.id])) ∧
    (srv.needsRestart = true →
      (∀ v ∈ servicesRunningOn m srv, v.stopErr = none) →
      srv.stopErr = none →
      (startService m svc).1 =
        ((servicesRunningOn m srv).map (fun v => Event.svcStopE v.id)
            ++ [Event.srvStopE srv.id])
          ++ [Event.srvServeE srv.id
                (m.serveOptions ++ serviceServeOptions svc
                  ++ hooksConcat (servicesRunningOn m srv))]) := by
  constructor
  · intro hnr
    cases hse : svc.startErr <;>
      cases hoe : svc.onServeErr <;>
        simp [startService, hres, hstop, hnr, hse, hoe]
  · intro hnr hall hsrv
    have hcs := stopServer_clean m srv hall
    simp [startService, hres, hstop, hnr, hcs, exceptOf, hsrv]

/-- A running server that reports `NeedsRestart`. -/
def srvR : Server :=
  { id := "srvR", scheme := "http", stopped := false, ready := true,
    needsRestart := true }

/-- A service currently running on `srvR`. -/
def svcX : Service :=
  { id := "svcX", name := "svcX", scheme := "http", tags := [],
    fork := false, autoStart := true, forceRegister := false,
    unique := false, autoRestart := false, ready := true, serverId := "srvR" }

/-- The newly attached, not yet running service on `srvR`. -/
def svcZ : Service :=
  { id := "svcZ", name := "svcZ", scheme := "http", tags := [],
    fork := false, autoStart := true, forceRegister := false,
    unique := false, autoRestart := false, ready := false, serverId := "srvR" }

/-- A Manager with `svcX` running and `svcZ` attached on `srvR`. -/
def mR : Manager :=
  { reg := regW, serveOptions := [ServeOpt.ambient "amb"],
    servers := [srvR], services := [svcX, svcZ] }

/-- Witness for C4 at `mR`: starting `svcZ` on the needs-restart server
stops `svcX`, stops `srvR`, and re-serves with the combined hooks. -/
theorem c4_startService_running_vs_restart_witness :
    (startService mR svcZ).1 =
      ((servicesRunningOn mR srvR).map (fun v => Event.svcStopE v.id)
          ++ [Event.srvStopE srvR.id])
        ++ [Event.srvServeE srvR.id
              (mR.serveOptions ++ serviceServeOptions svcZ
                ++ hooksConcat (servicesRunningOn mR srvR))] :=
  (c4_startService_running_vs_restart mR svcZ srvR rfl rfl).2 rfl
    (by
      intro v hv
      simp only [show servicesRunningOn mR srvR = [svcX] from rfl,
        List.mem_singleton] at hv
      subst hv
      rfl)
    rfl

/-- A unique service attached to `srvU`. -/
def svcU : Service :=
  { id := "u1", name := "usvc", scheme := "grpc", tags := [],
    fork := false, autoStart := true, forceRegister := false,
    unique := true, autoRestart := false, ready := false, serverId := "s1" }

/-- The stopped server `svcU` is attached to. -/
def srvU : Server :=
  { id := "s1", scheme := "grpc", stopped := true, ready := false,
    needsRestart := false }

/-- A registry item of `svcU`'s name whose status metadata is `waiting`:
neither `Stopped` nor `Ready`. -/
def itemWaiting : RegItem :=
  { id := "other", name := "usvc", meta := [(MetaStatusKey, "waiting")],
    shape := ItemShape.plain }

/-- A registry listing only `itemWaiting` under `svcU`'s name. -/
def regU : Reg :=
  { listSvcByName := fun n =>
      if n = "usvc" then ([itemWaiting], none) else ([], none),
    getItem := fun _ => Except.error GetErr.notFound,
    listByName := fun _ => Except.ok [] }

/-- A Manager retaining `srvU` and the unique `svcU`, against `regU`. -/
def mU : Manager :=
  { reg := regU, serveOptions := [], servers := [srvU], services := [svcU] }

/-- Counterexample to claim C3 as stated: with the only instance of
`svcU`'s name in `waiting` status, `startServer` skips the service and
spawns an arbiter (its id is collected, its before-hook omitted) even
though the registry shows no other `Ready` instance, so the claimed
equivalence with "another Ready instance exists" fails. -/
theorem c3_counterexample_nonready_incumbent :
    ¬ ((svcU.id ∈ (startServer mU srvU []).1 ∧
        ServeOpt.beforeServe svcU.id ∉ (startServer mU srvU []).2.1) ↔
       (svcU.unique = true ∧
        regShowsReadyInstance mU svcU.id svcU.name = true)) := by
  decide

/-- Claim C3 as amended: in `startServer`, an attached retained service's
hooks are omitted and an arbiter is spawned if and only if the service is
Unique and the registry lists an instance of its name whose status
metadata differs from `Stopped` (not necessarily `Ready`, and not
necessarily distinct from the service's own registration). -/
theorem c3_amended_unique_nonstopped_skip (m : Manager) (srv : Server)
    (oo : List ServeOpt)
    (hnodup : (m.services.map Service.id).Nodup)
    (hoo : ∀ i, ServeOpt.beforeServe i ∉ oo)
    (svc : Service) (hmem : svc ∈ m.services) (hatt : svc.serverId = srv.id) :
    (svc.id ∈ (startServer m srv oo).1 ↔
      (svc.unique = true ∧ regRunningService m svc.name = true)) ∧
    (ServeOpt.beforeServe svc.id ∉ (startServer m srv oo).2.1 ↔
      (svc.unique = true ∧ regRunningService m svc.name = true)) := by
  have hfst : (startServer m srv oo).1 =
      (m.services.filter (fun v => attachedTo srv v && skipUnique m v)).map
        Service.id := by
    simp [startServer, ssLoop_fst]
  have hsnd : (startServer m srv oo).2.1 =
      oo ++ hooksConcat
        (m.services.filter (fun v => attachedTo srv v && !skipUnique m v)) := by
    simp [startServer, ssLoop_snd]
  have hattb : attachedTo srv svc = true := by
    simp [attachedTo, hatt]
  have inj := List.inj_on_of_nodup_map hnodup
  constructor
  · rw [hfst]
    constructor
    · intro hmem2
      rcases List.mem_map.mp hmem2 with ⟨v, hvf, hid⟩
      rcases List.mem_filter.mp hvf with ⟨hvl, hp⟩
      have hveq : v = svc := inj hvl hmem hid
      subst hveq
      rw [Bool.and_eq_true] at hp
      rcases hp with ⟨-, hs⟩
      rw [skipUnique, Bool.and_eq_true] at hs
      exact hs
    · rintro ⟨hu, hr⟩
      refine List.mem_map.mpr ⟨svc, List.mem_filter.mpr ⟨hmem, ?_⟩, rfl⟩
      simp [hattb, skipUnique, hu, hr]
  · rw [hsnd]
    have hmemhooks : ServeOpt.beforeServe svc.id ∈ hooksConcat
        (m.services.filter (fun v => attachedTo srv v && !skipUnique m v)) ↔
        skipUnique m svc = false := by
      rw [beforeServe_mem_hooksConcat]
      constructor
      · rintro ⟨v, hvf, hid⟩
        rcases List.mem_filter.mp hvf with ⟨hvl, hq⟩
        have hveq : v = svc := inj hvl hmem hid
        subst hveq
        rw [Bool.and_eq_true] at hq
        rcases hq with ⟨-, hnotskip⟩
        simpa using hnotskip
      · intro hskip
        exact ⟨svc, List.mem_filter.mpr ⟨hmem, by simp [hattb, hskip]⟩, rfl⟩
    constructor
    · intro hnotin
      by_contra hcon
      have hskip : skipUnique m svc = false := by
        rw [skipUnique]
        cases hu : svc.unique
        · simp
        · cases hr : regRunningService m svc.name
          · simp
          · exact absurd ⟨hu, hr⟩ hcon
      exact hnotin (List.mem_append.mpr (Or.inr (hmemhooks.mpr hskip)))
    · rintro ⟨hu, hr⟩ hin
      rcases List.mem_append.mp hin with hin | hin
      · exact hoo svc.id hin
      · have hskip := hmemhooks.mp hin
        simp [skipUnique, hu, hr] at hskip

/-- Witness for the amended C3 at `mU`: both equivalences hold for the
unique `svcU` whose name has a non-Stopped instance in the registry. -/
theorem c3_amended_unique_nonstopped_skip_witness :
    (svcU.id ∈ (startServer mU srvU []).1 ↔
      (svcU.unique = true ∧ regRunningService mU svcU.name = true)) ∧
    (ServeOpt.beforeServe svcU.id ∉ (startServer mU srvU []).2.1 ↔
      (svcU.unique = true ∧ regRunningService mU svcU.name = true)) :=
  c3_amended_unique_nonstopped_skip mU srvU [] (by decide)
    (fun i h => absurd h (List.not_mem_nil _)) svcU (by decide) rfl

/-- Claim C7: in a non-fork process, `Init`'s planning never retains in the
local service map, nor registers under the root, a service with `Fork` set
and `AutoStart` unset (such candidates are dropped by the planning loop). -/
theorem c7_forkonly_never_retained (env : InitEnv) (root : Option String)
    (cands : List Service) (st : InitState) (srvs : List Server)
    (hfork : env.isFork = false)
    (hok : runInit env root cands = Except.ok (st, srvs)) :
    (∀ v ∈ st.services, ¬(v.fork = true ∧ v.autoStart = false)) ∧
    (∀ v ∈ st.registered, ¬(v.fork = true ∧ v.autoStart = false)) := by
  have hloop : initLoop env root ⟨[], [], []⟩ cands = Except.ok st := by
    unfold runInit at hok
    rcases hl : initLoop env root ⟨[], [], []⟩ cands with e | st0
    · rw [hl] at hok; cases hok
    · rw [hl] at hok
      injection hok with h1
      injection h1 with h2 h3
      rw [h2]
  have hinv := initLoop_inv env root hfork cands ⟨[], [], []⟩ st hloop
  constructor <;> intro v hv
  · rcases hinv.1 v hv with h | h
    · exact absurd h (List.not_mem_nil _)
    · rintro ⟨hf, -⟩
      rw [h] at hf
      cases hf
  · rcases hinv.2 v hv with h | h
    · exact absurd h (List.not_mem_nil _)
    · rintro ⟨hf, -⟩
      rw [h] at hf
      cases hf

/-- A fork-only candidate: `Fork` set, `AutoStart` unset. -/
def candF : Service :=
  { id := "candF", name := "candF", scheme := "grpc", tags := [],
    fork := true, autoStart := false, forceRegister := false,
    unique := false, autoRestart := false, ready := false, serverId := "" }

/-- The server `envC2.openServer` opens for scheme `grpc`. -/
def srvG : Server :=
  { id := "srv-grpc", scheme := "grpc", stopped := true, ready := false,
    needsRestart := false }

/-- `candN` as retained after planning, attached to `srvG`. -/
def candNr : Service := { candN with serverId := "srv-grpc" }

/-- The planning state produced by `runInit` on `[candF, candN]`. -/
def stW : InitState :=
  { byScheme := [("grpc", srvG)], registered := [candNr],
    services := [candNr] }

/-- Witness for C7: planning `[candF, candN]` in a non-fork process drops
the fork-only `candF`, retaining only `candN`. -/
theorem c7_forkonly_never_retained_witness :
    (∀ v ∈ stW.services, ¬(v.fork = true ∧ v.autoStart = false)) ∧
    (∀ v ∈ stW.registered, ¬(v.fork = true ∧ v.autoStart = false)) :=
  c7_forkonly_never_retained envC2 (some "root") [candF, candN] stW [srvG]
    rfl rfl

/-- Claim C8: `StopAll` runs `stopServer` for every retained server that is
`Ready` (its trace is a contiguous block of the `StopAll` trace), within
each server the running services are stopped before the server's own
`Stop`, and the root deregistration is always the final action, regardless
of stop errors. -/
theorem c8_stopAll_stops_ready_then_deregisters (m : Manager) :
    (StopAll m).getLast? = some Event.deregRootE ∧
    (∀ srv ∈ m.servers, srv.ready = true →
      ∃ pre post, StopAll m = pre ++ (stopServer m srv).1 ++ post) ∧
    (∀ srv : Server, (∀ v ∈ servicesRunningOn m srv, v.stopErr = none) →
      (stopServer m srv).1 =
        (servicesRunningOn m srv).map (fun v => Event.svcStopE v.id)
          ++ [Event.srvStopE srv.id]) := by
  refine ⟨?_, ?_, ?_⟩
  · simp only [StopAll]
    exact List.getLast?_concat _
  · intro srv hmem hready
    have hmf : srv ∈ m.servers.filter (fun s => s.ready) :=
      List.mem_filter.mpr ⟨hmem, hready⟩
    rcases foldr_append_infix (fun srv => (stopServer m srv).1) _ srv hmf with
      ⟨pre, post, hp⟩
    exact ⟨pre, post ++ [Event.deregRootE],
      by simp [StopAll, hp, List.append_assoc]⟩
  · intro srv hall
    rw [stopServer_clean m srv hall]

/-- A retained server currently `Ready`. -/
def srvS : Server :=
  { id := "srvS", scheme := "grpc", stopped := false, ready := true,
    needsRestart := false }

/-- A Manager retaining only the ready `srvS`. -/
def mS : Manager :=
  { reg := regW, serveOptions := [], servers := [srvS], services := [] }

/-- Witness for C8 at `mS`: the ready `srvS` has its `stopServer` trace
inside the `StopAll` trace. -/
theorem c8_stopAll_stops_ready_then_deregisters_witness :
    ∃ pre post, StopAll mS = pre ++ (stopServer mS srvS).1 ++ post :=
  (c8_stopAll_stops_ready_then_deregisters mS).2.1 srvS (by decide) rfl

/-- Claim C10 (implicit): `regRunningService` discards the error of the
registry `List` call (`ll, _ :=`); when the call fails (returning no items
and an error, the Go convention), it reports that no running instance
exists, so `startServer` treats a Unique service as having no incumbent:
no arbiter is spawned for it and its before-serve hook is merged into the
serve options. -/
theorem c10_registry_error_no_incumbent (m : Manager) (svc : Service)
    (srv : Server) (oo : List ServeOpt) (e : String)
    (hnodup : (m.services.map Service.id).Nodup)
    (hmem : svc ∈ m.services) (hatt : svc.serverId = srv.id)
    (huniq : svc.unique = true)
    (hfail : m.reg.listSvcByName svc.name = ([], some e)) :
    regRunningService m svc.name = false ∧
    svc.id ∉ (startServer m srv oo).1 ∧
    ServeOpt.beforeServe svc.id ∈ (startServer m srv oo).2.1 := by
  have hrun : regRunningService m svc.name = false := by
    simp [regRunningService, hfail]
  have hfst : (startServer m srv oo).1 =
      (m.services.filter (fun v => attachedTo srv v && skipUnique m v)).map
        Service.id := by
    simp [startServer, ssLoop_fst]
  have hsnd : (startServer m srv oo).2.1 =
      oo ++ hooksConcat
        (m.services.filter (fun v => attachedTo srv v && !skipUnique m v)) := by
    simp [startServer, ssLoop_snd]
  have hattb : attachedTo srv svc = true := by
    simp [attachedTo, hatt]
  have hskip : skipUnique m svc = false := by
    simp [skipUnique, hrun]
  have inj := List.inj_on_of_nodup_map hnodup
  refine ⟨hrun, ?_, ?_⟩
  · rw [hfst]
    intro hin
    rcases List.mem_map.mp hin with ⟨v, hvf, hid⟩
    rcases List.mem_filter.mp hvf with ⟨hvl, hp⟩
    have hveq : v = svc := inj hvl hmem hid
    subst hveq
    rw [Bool.and_eq_true] at hp
    rcases hp with ⟨-, hs⟩
    rw [hskip] at hs
    cases hs
  · rw [hsnd]
    exact List.mem_append.mpr (Or.inr ((beforeServe_mem_hooksConcat _ _).mpr
      ⟨svc, List.mem_filter.mpr ⟨hmem, by simp [hattb, hskip]⟩, rfl⟩))

/-- A registry whose service List call always fails. -/
def regE : Reg :=
  { listSvcByName := fun _ => ([], some "registry down"),
    getItem := fun _ => Except.error GetErr.notFound,
    listByName := fun _ => Except.ok [] }

/-- A unique service attached to `srvT`. -/
def svcE : Service :=
  { id := "e1", name := "esvc", scheme := "grpc", tags := [],
    fork := false, autoStart := true, forceRegister := false,
    unique := true, autoRestart := false, ready := false, serverId := "s2" }

/-- The server `svcE` is attached to. -/
def srvT : Server :=
  { id := "s2", scheme := "grpc", stopped := true, ready := false,
    needsRestart := false }

/-- A Manager over the failing registry `regE`. -/
def mE : Manager :=
  { reg := regE, serveOptions := [], servers := [srvT], services := [svcE] }

/-- Witness for C10 at `mE`: under the failing registry, the unique `svcE`
is not deferred and its before-serve hook is merged. -/
theorem c10_registry_error_no_incumbent_witness :
    regRunningService mE svcE.name = false ∧
    svcE.id ∉ (startServer mE srvT []).1 ∧
    ServeOpt.beforeServe svcE.id ∈ (startServer mE srvT []).2.1 :=
  c10_registry_error_no_incumbent mE svcE srvT [] "registry down"
    (by decide) (by decide) rfl rfl rfl

end Cells
